import Mathlib

/-!
Shallow embedding of the invoice reconciliation engine of wekog/pool-cost-tracker.

Source files embedded:
  * src/api/app/sync_service.py  (`sync_invoices`, the per-document loop)
  * src/api/app/main.py          (`update_invoice`, the PUT /invoices/{id} handler)
  * src/api/app/models.py        (`Invoice`, `SyncRun` columns)
  * src/api/app/schemas.py       (`InvoiceUpdate`)

Modelling conventions:
  * `Decimal(12,2)` amounts are modelled as scaled integers (`Int`, cents);
    Decimal equality is exact numeric equality, which scaled integers preserve.
  * timestamps are abstract `Nat` instants; `datetime.utcnow()` at the start of a
    run becomes the `now : Nat` argument of `sync_invoices`.
  * the field extractor `extract_invoice_fields` (src/api/app/extraction.py) is an
    out-of-scope collaborator; it is passed in as a function returning
    `Except String Extracted` (an `Except.error` models a raised exception).
  * `float(extracted.get('confidence') or 0.0)` is modelled with `confidence` as a
    scaled integer and Python `or 0.0` as `Option.getD 0` (both send a missing or
    zero confidence to 0 and keep every other value).
  * the ISO-timestamp parse `datetime.fromisoformat(...)` is passed in as
    `parseTs : String → Option Nat`; a `none` result models the `ValueError`
    branch that degrades to a null creation time.
  * the Python dict `existing` (keyed by `paperless_doc_id`, mutated in place on
    update, not extended on insert) is an association list; `db.add` of new rows
    accumulates in `inserted_rows`.
  * a pydantic payload field with `exclude_unset` semantics has three states and
    is modelled as `Option (Option v)`: `none` = key absent, `some none` = key
    present with JSON null, `some (some v)` = key present with a value.
-/

/-- Invoice row, following the column list of `Invoice` in src/api/app/models.py.
The surrogate primary key `id` and the purely DB-managed `updated_at` column are
omitted; every column read or written by `sync_invoices` or `update_invoice` is
present. `vendor_source` / `amount_source` are the strings written by the code
(`"auto"` or `"manual"`). -/
structure Invoice where
  source : String := "paperless"
  paperless_doc_id : Int
  paperless_created : Option Nat := none
  title : Option String := none
  vendor : Option String := none
  vendor_auto : Option String := none
  vendor_source : String := "auto"
  amount : Option Int := none
  amount_auto : Option Int := none
  amount_source : String := "auto"
  currency : String := "EUR"
  confidence : Int := 0
  needs_review : Bool := true
  extracted_at : Nat := 0
  debug_json : Option String := none
  correspondent : Option String := none
  document_type : Option String := none
  ocr_text : String := ""
  deriving DecidableEq, Repr

/-- One document as delivered by the document source (`get_project_documents`):
the dict keys read by `sync_invoices`. `id = none` models a document whose
`doc.get('id')` is `None` (malformed upstream data). -/
structure Document where
  id : Option Int := none
  created : Option String := none
  title : Option String := none
  correspondent : Option String := none
  content : Option String := none
  document_type : Option String := none
  deriving DecidableEq, Repr

/-- The extractor's output dict. A `none` field models an absent / null key, so
dict-get defaults (`'EUR'`, `True`, `0.0`) are applied at the use sites exactly
where sync_service.py applies them. -/
structure Extracted where
  vendor : Option String := none
  amount : Option Int := none
  currency : Option String := none
  confidence : Option Int := none
  needs_review : Option Bool := none
  debug_json : Option String := none
  deriving DecidableEq, Repr

/-- Per-run mutable state of the document loop of `sync_invoices`: the
`existing` map (as an association list keyed by `paperless_doc_id`), the rows
handed to `db.add`, the four outcome counters, and the first-error capture. -/
structure SyncState where
  existing : List (Int × Invoice)
  inserted_rows : List Invoice := []
  inserted : Nat := 0
  updated : Nat := 0
  skipped : Nat := 0
  error_count : Nat := 0
  first_error : Option String := none
  deriving DecidableEq, Repr

/-- The run summary persisted as a `SyncRun` row / returned as `SyncResponse`
(the timing fields, which are pure wall-clock bookkeeping, are omitted). -/
structure SyncResult where
  checked_docs : Nat
  new_invoices : Nat
  updated_invoices : Nat
  skipped_invoices : Nat
  error_count : Nat
  last_error_text : Option String
  deriving DecidableEq, Repr

/-- Dict lookup `existing.get(k)`: first entry with the key. -/
def lookupAssoc (l : List (Int × Invoice)) (k : Int) : Option Invoice :=
  match l with
  | [] => none
  | (k', v) :: rest => if k' = k then some v else lookupAssoc rest k

/-- In-place mutation of the row held under key `k` (the `setattr` loop mutates
the object the dict points at; the key set is unchanged). -/
def updateAssoc (l : List (Int × Invoice)) (k : Int) (v : Invoice) : List (Int × Invoice) :=
  match l with
  | [] => []
  | (k', v') :: rest => if k' = k then (k', v) :: rest else (k', v') :: updateAssoc rest k v

/-- Defensive creation-timestamp parse (sync_service.py lines 44-49):
`if doc.get('created'):` is a truthiness test, so an absent or empty string
yields `none`; otherwise the parser runs and a failure degrades to `none`. -/
def parsedCreated (parseTs : String → Option Nat) (doc : Document) : Option Nat :=
  match doc.created with
  | none => none
  | some s => if s = "" then none else parseTs s

/-- The row produced by the insert branch (sync_service.py lines 53-77): the
`new_data` dict plus the insert-only keys `vendor`, `amount`,
`vendor_source = amount_source = 'auto'` and
`needs_review = bool(extracted.get('needs_review', True))`. -/
def insertInvoice (now : Nat) (docId : Int) (doc : Document) (ext : Extracted)
    (created : Option Nat) : Invoice :=
  { source := "paperless"
    paperless_doc_id := docId
    paperless_created := created
    title := doc.title
    vendor := ext.vendor
    vendor_auto := ext.vendor
    vendor_source := "auto"
    amount := ext.amount
    amount_auto := ext.amount
    amount_source := "auto"
    currency := ext.currency.getD "EUR"
    confidence := ext.confidence.getD 0
    needs_review := ext.needs_review.getD true
    extracted_at := now
    debug_json := ext.debug_json
    correspondent := doc.correspondent
    document_type := doc.document_type
    ocr_text := doc.content.getD "" }

/-- The row value after the update branch (sync_service.py lines 79-95): every
`new_data` key is written when it differs, the visible `vendor` / `amount` keys
are added to `new_data` only when the stored source is `'auto'`, the provenance
markers are never in `new_data` (so they carry over), and `needs_review` is
recomputed from the stored sources and this pass's extractor signal. -/
def applyUpdate (now : Nat) (docId : Int) (doc : Document) (ext : Extracted)
    (created : Option Nat) (inv : Invoice) : Invoice :=
  { source := "paperless"
    paperless_doc_id := docId
    paperless_created := created
    title := doc.title
    vendor := if inv.vendor_source = "auto" then ext.vendor else inv.vendor
    vendor_auto := ext.vendor
    vendor_source := inv.vendor_source
    amount := if inv.amount_source = "auto" then ext.amount else inv.amount
    amount_auto := ext.amount
    amount_source := inv.amount_source
    currency := ext.currency.getD "EUR"
    confidence := ext.confidence.getD 0
    needs_review := if inv.vendor_source = "manual" ∨ inv.amount_source = "manual"
                    then false else ext.needs_review.getD true
    extracted_at := now
    debug_json := ext.debug_json
    correspondent := doc.correspondent
    document_type := doc.document_type
    ocr_text := doc.content.getD "" }

/-- One iteration of the document loop of `sync_invoices` (sync_service.py
lines 37-103). A document without an id is passed over with no state change;
an extractor exception takes the `except` branch; otherwise the insert or the
update/skip branch runs. `changed` of the `setattr` comparison loop is exactly
`applyUpdate ... inv ≠ inv`, since the loop compares and writes precisely the
fields on which `applyUpdate` may differ from `inv`. -/
def processDoc (extract : String → Option String → Except String Extracted)
    (parseTs : String → Option Nat) (now : Nat)
    (st : SyncState) (doc : Document) : SyncState :=
  match doc.id with
  | none => st
  | some docId =>
    match extract (doc.content.getD "") doc.correspondent with
    | Except.error msg =>
        { st with error_count := st.error_count + 1,
                  first_error := some (st.first_error.getD msg) }
    | Except.ok ext =>
        let created := parsedCreated parseTs doc
        match lookupAssoc st.existing docId with
        | none =>
            { st with
              inserted_rows := st.inserted_rows ++ [insertInvoice now docId doc ext created],
              inserted := st.inserted + 1 }
        | some inv =>
            let inv2 := applyUpdate now docId doc ext created inv
            if inv2 = inv then { st with skipped := st.skipped + 1 }
            else { st with existing := updateAssoc st.existing docId inv2,
                           updated := st.updated + 1 }

/-- Initial loop state (sync_service.py lines 33-34): all counters zero, no
first error, no pending inserts. -/
def initState (existing : List (Int × Invoice)) : SyncState :=
  { existing := existing }

/-- The document loop as a fold. -/
def runDocs (extract : String → Option String → Except String Extracted)
    (parseTs : String → Option Nat) (now : Nat)
    (st : SyncState) (docs : List Document) : SyncState :=
  docs.foldl (processDoc extract parseTs now) st

/-- `sync_invoices` (sync_service.py lines 17-129) restricted to its pure
reconciliation content: fold the loop over the fetched batch and build the run
summary, whose `checked_docs` is `len(docs)`. The pre-loop bulk query is the
`existing` argument (restricting it to the batch's doc ids does not change any
lookup the loop performs). Returns the summary together with the final state,
whose rows are what the closing `db.commit()` persists. -/
def sync_invoices (extract : String → Option String → Except String Extracted)
    (parseTs : String → Option Nat) (now : Nat) (docs : List Document)
    (existing : List (Int × Invoice)) : SyncResult × SyncState :=
  let final := runDocs extract parseTs now (initState existing) docs
  ({ checked_docs := docs.length
     new_invoices := final.inserted
     updated_invoices := final.updated
     skipped_invoices := final.skipped
     error_count := final.error_count
     last_error_text := final.first_error }, final)

/-- The database state visible to a later run: rows updated in place plus the
newly inserted rows, each keyed by its `paperless_doc_id` column. -/
def nextExisting (st : SyncState) : List (Int × Invoice) :=
  st.existing ++ st.inserted_rows.map (fun i => (i.paperless_doc_id, i))

/-- A document is a guaranteed skip against the map `l`: it has an id, its
extraction succeeds, and the stored row is a fixed point of this pass's update
(the `setattr` comparison loop finds nothing to write). -/
def SkipFix (e : String → Option String → Except String Extracted)
    (p : String → Option Nat) (n : Nat) (l : List (Int × Invoice)) (d : Document) : Prop :=
  ∃ k ext v, d.id = some k ∧ e (d.content.getD "") d.correspondent = Except.ok ext ∧
    lookupAssoc l k = some v ∧ applyUpdate n k d ext (parsedCreated p d) v = v

/-- PUT payload (src/api/app/schemas.py `InvoiceUpdate`): every field optional,
with pydantic `exclude_unset` three-state semantics. -/
structure InvoiceUpdate where
  vendor : Option (Option String) := none
  amount : Option (Option Int) := none
  needs_review : Option (Option Bool) := none
  reset_vendor : Option (Option Bool) := none
  reset_amount : Option (Option Bool) := none
  deriving DecidableEq, Repr

/-- Python truthiness of an optional string (`if invoice.vendor`). -/
def truthyStr (s : Option String) : Bool :=
  match s with
  | none => false
  | some s => !(s == "")

/-- `bool(changes.pop('reset_vendor', False))`: an absent key or a null value
is `False`. -/
def resetFlag (f : Option (Option Bool)) : Bool :=
  match f with
  | some (some b) => b
  | _ => false

/-- `update_invoice` (src/api/app/main.py lines 364-402) on an existing row:
the amount edit (lines 373-377, only when the key is present and non-null),
the vendor edit (lines 378-381, whenever the key is present; the source flips
only for a non-null differing value), the two resets (lines 383-390, the copy
from the shadow guarded by `*_auto is not None`), then the `needs_review`
recomputation (lines 392-398). -/
def update_invoice (payload : InvoiceUpdate) (invoice : Invoice) : Invoice :=
  let reset_vendor := resetFlag payload.reset_vendor
  let reset_amount := resetFlag payload.reset_amount
  let inv1 :=
    match payload.amount with
    | some (some a) =>
        { invoice with
          amount_source := if invoice.amount ≠ some a then "manual" else invoice.amount_source
          amount := some a }
    | _ => invoice
  let inv2 :=
    match payload.vendor with
    | none => inv1
    | some v =>
        { inv1 with
          vendor_source :=
            match v with
            | some s => if inv1.vendor ≠ some s then "manual" else inv1.vendor_source
            | none => inv1.vendor_source
          vendor := v }
  let inv3 :=
    if reset_vendor then
      { inv2 with
        vendor_source := "auto"
        vendor := match inv2.vendor_auto with
                  | some a => some a
                  | none => inv2.vendor }
    else inv2
  let inv4 :=
    if reset_amount then
      { inv3 with
        amount_source := "auto"
        amount := match inv3.amount_auto with
                  | some a => some a
                  | none => inv3.amount }
    else inv3
  match payload.needs_review with
  | some v => { inv4 with needs_review := v.getD false }
  | none =>
    if payload.vendor.isSome || payload.amount.isSome || reset_vendor || reset_amount then
      if truthyStr inv4.vendor && inv4.amount.isSome then
        { inv4 with needs_review := false }
      else if inv4.vendor_source = "auto" ∧ inv4.amount_source = "auto" then
        { inv4 with needs_review := true }
      else inv4
    else inv4

/-! Concrete fixtures used by counterexamples and witnesses. -/

/-- A fixed extractor output (the shape of the spec's scenario: vendor from the
correspondent, amount 123.45 scaled to cents). -/
def extW : Extracted :=
  { vendor := some "Acme", amount := some 12345, currency := some "EUR",
    confidence := some 88, needs_review := some false, debug_json := some "d" }

/-- An extractor that always succeeds with `extW`. -/
def exOk : String → Option String → Except String Extracted :=
  fun _ _ => Except.ok extW

/-- An extractor that raises on the OCR text `"BOOM"` and otherwise returns
`extW`. -/
def exErr : String → Option String → Except String Extracted :=
  fun s _ => if s = "BOOM" then Except.error "kaputt" else Except.ok extW

/-- A timestamp parser that always fails (creation time degrades to null). -/
def tsNone : String → Option Nat := fun _ => none

/-- A well-formed document with external id 1. -/
def docW : Document :=
  { id := some 1, created := some "2026-01-15T10:00:00Z", title := some "Rechnung",
    correspondent := some "Acme", content := some "Brutto", document_type := some "Rechnung" }

/-- A document whose extraction raises under `exErr`. -/
def docBoom : Document := { id := some 2, content := some "BOOM" }

/-- A second well-formed document, external id 3. -/
def docW3 : Document := { id := some 3, content := some "x" }

/-- A malformed document: `doc.get('id')` is `None`. -/
def docNoId : Document := { id := none, content := some "text" }

/-- A stored row with both sources `auto`. -/
def invAuto : Invoice :=
  { paperless_doc_id := 1, vendor := some "Old", vendor_auto := some "Old",
    vendor_source := "auto", amount := some 100, amount_auto := some 100,
    amount_source := "auto" }

/-- A stored row with a manual vendor override. -/
def invManualV : Invoice :=
  { paperless_doc_id := 1, vendor := some "Mine", vendor_auto := some "Old",
    vendor_source := "manual", amount := some 100, amount_auto := some 100,
    amount_source := "auto" }

/-- A stored row whose vendor shadow is null (the extractor never produced a
vendor for it). -/
def invNullShadow : Invoice :=
  { paperless_doc_id := 7, vendor := some "Alt", vendor_auto := none,
    vendor_source := "auto", amount := some 500, amount_auto := some 400,
    amount_source := "auto" }

/-! Association-list lemmas. -/

theorem lookupAssoc_updateAssoc_self (l : List (Int × Invoice)) (k : Int) (w : Invoice)
    (h : (lookupAssoc l k).isSome) :
    lookupAssoc (updateAssoc l k w) k = some w := by
  induction l with
  | nil => simp [lookupAssoc] at h
  | cons p rest ih =>
    obtain ⟨k', v'⟩ := p
    by_cases hk : k' = k
    · simp [lookupAssoc, updateAssoc, hk]
    · simp [lookupAssoc, updateAssoc, hk] at h ⊢
      exact ih h

theorem lookupAssoc_updateAssoc_ne (l : List (Int × Invoice)) (k k' : Int) (w : Invoice)
    (h : k' ≠ k) :
    lookupAssoc (updateAssoc l k' w) k = lookupAssoc l k := by
  induction l with
  | nil => simp [updateAssoc]
  | cons p rest ih =>
    obtain ⟨k₀, v₀⟩ := p
    by_cases hk : k₀ = k'
    · subst hk
      simp [lookupAssoc, updateAssoc, h]
    · simp [lookupAssoc, updateAssoc, hk]
      by_cases hk2 : k₀ = k
      · simp [hk2]
      · simp [hk2, ih]

theorem lookupAssoc_append_left (l₁ l₂ : List (Int × Invoice)) (k : Int) (v : Invoice)
    (h : lookupAssoc l₁ k = some v) :
    lookupAssoc (l₁ ++ l₂) k = some v := by
  induction l₁ with
  | nil => simp [lookupAssoc] at h
  | cons p rest ih =>
    obtain ⟨k₀, v₀⟩ := p
    by_cases hk : k₀ = k
    · simp [lookupAssoc, hk] at h ⊢
      exact h
    · simp [lookupAssoc, hk] at h ⊢
      exact ih h

theorem lookupAssoc_append_right (l₁ l₂ : List (Int × Invoice)) (k : Int)
    (h : lookupAssoc l₁ k = none) :
    lookupAssoc (l₁ ++ l₂) k = lookupAssoc l₂ k := by
  induction l₁ with
  | nil => simp
  | cons p rest ih =>
    obtain ⟨k₀, v₀⟩ := p
    by_cases hk : k₀ = k
    · simp [lookupAssoc, hk] at h
    · simp [lookupAssoc, hk] at h ⊢
      exact ih h

/-! Counter accounting. -/

theorem processDoc_counter_sum (e : String → Option String → Except String Extracted)
    (p : String → Option Nat) (n : Nat) (st : SyncState) (d : Document) :
    (processDoc e p n st d).inserted + (processDoc e p n st d).updated
      + (processDoc e p n st d).skipped + (processDoc e p n st d).error_count
    = st.inserted + st.updated + st.skipped + st.error_count
      + (if d.id.isSome then 1 else 0) := by
  cases hid : d.id with
  | none => simp [processDoc, hid]
  | some k =>
    cases hex : e (d.content.getD "") d.correspondent with
    | error msg => simp [processDoc, hid, hex]; omega
    | ok ext =>
      cases hlk : lookupAssoc st.existing k with
      | none => simp [processDoc, hid, hex, hlk]; omega
      | some inv =>
        by_cases hch : applyUpdate n k d ext (parsedCreated p d) inv = inv
        · simp [processDoc, hid, hex, hlk, hch]; omega
        · simp [processDoc, hid, hex, hlk, hch]; omega

theorem runDocs_counter_sum (e : String → Option String → Except String Extracted)
    (p : String → Option Nat) (n : Nat) :
    ∀ (docs : List Document) (st : SyncState),
    (runDocs e p n st docs).inserted + (runDocs e p n st docs).updated
      + (runDocs e p n st docs).skipped + (runDocs e p n st docs).error_count
    = st.inserted + st.updated + st.skipped + st.error_count
      + (docs.filter (fun d => d.id.isSome)).length := by
  intro docs
  induction docs with
  | nil => intro st; simp [runDocs]
  | cons d rest ih =>
    intro st
    have hstep := processDoc_counter_sum e p n st d
    have hrest := ih (processDoc e p n st d)
    by_cases hd : d.id.isSome
    · simp only [runDocs, List.foldl_cons] at hrest ⊢
      simp [hd] at hstep ⊢
      omega
    · simp only [runDocs, List.foldl_cons] at hrest ⊢
      simp [hd] at hstep ⊢
      omega

theorem length_filter_id_split (docs : List Document) :
    docs.length = (docs.filter (fun d => d.id.isSome)).length
      + (docs.filter (fun d => d.id.isNone)).length := by
  induction docs with
  | nil => simp
  | cons d rest ih =>
    cases hd : d.id <;> simp [hd, List.filter_cons] <;> omega

/-- C2 counterexample: a batch containing a single document without an external
id gives `checked_docs = 1` (it is `len(docs)`) while all four outcome counters
are 0, so `checked_docs = new + updated + skipped + error_count` fails. -/
theorem counter_identity_counterexample :
    (sync_invoices exOk tsNone 0 [docNoId] []).1.checked_docs = 1 ∧
    (sync_invoices exOk tsNone 0 [docNoId] []).1.new_invoices
      + (sync_invoices exOk tsNone 0 [docNoId] []).1.updated_invoices
      + (sync_invoices exOk tsNone 0 [docNoId] []).1.skipped_invoices
      + (sync_invoices exOk tsNone 0 [docNoId] []).1.error_count = 0 ∧
    ¬ ((sync_invoices exOk tsNone 0 [docNoId] []).1.checked_docs
        = (sync_invoices exOk tsNone 0 [docNoId] []).1.new_invoices
          + (sync_invoices exOk tsNone 0 [docNoId] []).1.updated_invoices
          + (sync_invoices exOk tsNone 0 [docNoId] []).1.skipped_invoices
          + (sync_invoices exOk tsNone 0 [docNoId] []).1.error_count) := by
  decide

/-- C2 (amended): for every run,
`checked_docs = new + updated + skipped + error_count + #(documents lacking an
external id)`; every document with an external id contributes to exactly one of
the four outcome counters, but `checked_docs` is the whole batch length, so
id-less documents are counted as checked without any outcome. -/
theorem counter_identity (e : String → Option String → Except String Extracted)
    (p : String → Option Nat) (n : Nat) (docs : List Document)
    (existing : List (Int × Invoice)) :
    (sync_invoices e p n docs existing).1.checked_docs
      = (sync_invoices e p n docs existing).1.new_invoices
        + (sync_invoices e p n docs existing).1.updated_invoices
        + (sync_invoices e p n docs existing).1.skipped_invoices
        + (sync_invoices e p n docs existing).1.error_count
        + (docs.filter (fun d => d.id.isNone)).length := by
  have h := runDocs_counter_sum e p n docs (initState existing)
  have hlen := length_filter_id_split docs
  simp only [sync_invoices, initState] at h ⊢
  omega

/-- C3 counterexample: a batch consisting of one document without an external id
is processed with no outcome, no error and no invoice mutation, yet the recorded
`checked_docs` is 1, not 0 — the malformed document is counted toward
`checked_docs`, contrary to the claim. -/
theorem malformed_counted_counterexample :
    (sync_invoices exOk tsNone 0 [docNoId] []).1.checked_docs = 1 ∧
    (sync_invoices exOk tsNone 0 [docNoId] []).2
      = initState [] := by
  decide

/-- C3 (amended): a document lacking an external id is passed over with no
outcome recorded — no counter moves, no error is stored, and no invoice state
changes — but it is still included in `checked_docs`, which is the length of
the whole fetched batch. -/
theorem malformed_doc_silent_but_checked
    (e : String → Option String → Except String Extracted)
    (p : String → Option Nat) (n : Nat) (st : SyncState) (d : Document)
    (hd : d.id = none) (docs₁ docs₂ : List Document)
    (existing : List (Int × Invoice)) :
    processDoc e p n st d = st ∧
    (sync_invoices e p n (docs₁ ++ d :: docs₂) existing).1.checked_docs
      = docs₁.length + docs₂.length + 1 := by
  constructor
  · simp [processDoc, hd]
  · simp [sync_invoices]
    omega

/-- C3 witness. -/
theorem malformed_doc_silent_but_checked_witness :
    processDoc exOk tsNone 0 (initState []) docNoId = initState [] ∧
    (sync_invoices exOk tsNone 0 ([docW] ++ docNoId :: [docW3]) []).1.checked_docs
      = [docW].length + [docW3].length + 1 :=
  malformed_doc_silent_but_checked exOk tsNone 0 (initState []) docNoId (by decide)
    [docW] [docW3] []

/-! Update-branch helpers. -/

theorem processDoc_update_lookup (e : String → Option String → Except String Extracted)
    (p : String → Option Nat) (n : Nat) (st : SyncState) (d : Document) (k : Int)
    (ext : Extracted) (inv : Invoice)
    (hid : d.id = some k)
    (hex : e (d.content.getD "") d.correspondent = Except.ok ext)
    (hlk : lookupAssoc st.existing k = some inv) :
    lookupAssoc (processDoc e p n st d).existing k
      = some (applyUpdate n k d ext (parsedCreated p d) inv) := by
  by_cases hch : applyUpdate n k d ext (parsedCreated p d) inv = inv
  · simp [processDoc, hid, hex, hlk, hch]
  · simp [processDoc, hid, hex, hlk, hch]
    exact lookupAssoc_updateAssoc_self st.existing k _ (by simp [hlk])

/-- C4: on the update path of a reconciliation pass (document with external id
`k`, successful extraction `ext`, stored row `inv`), the stored row afterwards
is `applyUpdate ... inv`, whose `vendor_auto` / `amount_auto` are the
extractor's output unconditionally; a field whose source is `auto` has its
visible value overwritten with the new extractor value, while a field whose
source is `manual` keeps its visible value and still gets the shadow update. -/
theorem provenance_contract (e : String → Option String → Except String Extracted)
    (p : String → Option Nat) (n : Nat) (st : SyncState) (d : Document) (k : Int)
    (ext : Extracted) (inv : Invoice)
    (hid : d.id = some k)
    (hex : e (d.content.getD "") d.correspondent = Except.ok ext)
    (hlk : lookupAssoc st.existing k = some inv) :
    lookupAssoc (processDoc e p n st d).existing k
      = some (applyUpdate n k d ext (parsedCreated p d) inv) ∧
    (applyUpdate n k d ext (parsedCreated p d) inv).vendor_auto = ext.vendor ∧
    (applyUpdate n k d ext (parsedCreated p d) inv).amount_auto = ext.amount ∧
    (inv.vendor_source = "auto" →
      (applyUpdate n k d ext (parsedCreated p d) inv).vendor = ext.vendor) ∧
    (inv.vendor_source = "manual" →
      (applyUpdate n k d ext (parsedCreated p d) inv).vendor = inv.vendor) ∧
    (inv.amount_source = "auto" →
      (applyUpdate n k d ext (parsedCreated p d) inv).amount = ext.amount) ∧
    (inv.amount_source = "manual" →
      (applyUpdate n k d ext (parsedCreated p d) inv).amount = inv.amount) := by
  refine ⟨processDoc_update_lookup e p n st d k ext inv hid hex hlk, ?_, ?_, ?_, ?_, ?_, ?_⟩
  · simp [applyUpdate]
  · simp [applyUpdate]
  · intro h; simp [applyUpdate, h]
  · intro h; rw [applyUpdate]; simp [h]
  · intro h; simp [applyUpdate, h]
  · intro h; rw [applyUpdate]; simp [h]

/-- C4 witness: an existing row with manual vendor and auto amount. -/
theorem provenance_contract_witness :
    lookupAssoc (processDoc exOk tsNone 5 (initState [(1, invManualV)]) docW).existing 1
      = some (applyUpdate 5 1 docW extW (parsedCreated tsNone docW) invManualV) ∧
    (applyUpdate 5 1 docW extW (parsedCreated tsNone docW) invManualV).vendor_auto = extW.vendor ∧
    (applyUpdate 5 1 docW extW (parsedCreated tsNone docW) invManualV).amount_auto = extW.amount ∧
    (invManualV.vendor_source = "auto" →
      (applyUpdate 5 1 docW extW (parsedCreated tsNone docW) invManualV).vendor = extW.vendor) ∧
    (invManualV.vendor_source = "manual" →
      (applyUpdate 5 1 docW extW (parsedCreated tsNone docW) invManualV).vendor = invManualV.vendor) ∧
    (invManualV.amount_source = "auto" →
      (applyUpdate 5 1 docW extW (parsedCreated tsNone docW) invManualV).amount = extW.amount) ∧
    (invManualV.amount_source = "manual" →
      (applyUpdate 5 1 docW extW (parsedCreated tsNone docW) invManualV).amount = invManualV.amount) :=
  provenance_contract exOk tsNone 5 (initState [(1, invManualV)]) docW 1 extW invManualV
    (by decide) (by rfl) (by decide)

/-- C5: on the update path of a reconciliation pass, the stored row's
`needs_review` afterwards is `false` whenever either provenance source is
`manual`, regardless of the extractor's signal, and equals the extractor's
fresh signal for this pass (defaulting to `true` when the signal is absent)
when both sources are `auto`. -/
theorem review_suppression (e : String → Option String → Except String Extracted)
    (p : String → Option Nat) (n : Nat) (st : SyncState) (d : Document) (k : Int)
    (ext : Extracted) (inv : Invoice)
    (hid : d.id = some k)
    (hex : e (d.content.getD "") d.correspondent = Except.ok ext)
    (hlk : lookupAssoc st.existing k = some inv) :
    lookupAssoc (processDoc e p n st d).existing k
      = some (applyUpdate n k d ext (parsedCreated p d) inv) ∧
    (inv.vendor_source = "manual" ∨ inv.amount_source = "manual" →
      (applyUpdate n k d ext (parsedCreated p d) inv).needs_review = false) ∧
    (inv.vendor_source = "auto" ∧ inv.amount_source = "auto" →
      (applyUpdate n k d ext (parsedCreated p d) inv).needs_review
        = ext.needs_review.getD true) := by
  refine ⟨processDoc_update_lookup e p n st d k ext inv hid hex hlk, ?_, ?_⟩
  · intro h; simp [applyUpdate, h]
  · rintro ⟨h1, h2⟩; rw [applyUpdate]; simp [h1, h2]

/-- C5 witness: a manual-vendor row is not re-flagged even though the default
signal would be `true`. -/
theorem review_suppression_witness :
    lookupAssoc (processDoc exOk tsNone 5 (initState [(1, invManualV)]) docW).existing 1
      = some (applyUpdate 5 1 docW extW (parsedCreated tsNone docW) invManualV) ∧
    (invManualV.vendor_source = "manual" ∨ invManualV.amount_source = "manual" →
      (applyUpdate 5 1 docW extW (parsedCreated tsNone docW) invManualV).needs_review = false) ∧
    (invManualV.vendor_source = "auto" ∧ invManualV.amount_source = "auto" →
      (applyUpdate 5 1 docW extW (parsedCreated tsNone docW) invManualV).needs_review
        = extW.needs_review.getD true) :=
  review_suppression exOk tsNone 5 (initState [(1, invManualV)]) docW 1 extW invManualV
    (by decide) (by rfl) (by decide)

/-- C6: for a document with external id `k` that matches no existing invoice,
the loop iteration appends exactly one new row to the pending inserts, bumps
only the `inserted` counter, and the new row seeds its visible fields and its
shadow fields from the extractor's output, sets both sources to `auto`, and
takes `needs_review` from the extractor's signal with default `true`. -/
theorem insert_path (e : String → Option String → Except String Extracted)
    (p : String → Option Nat) (n : Nat) (st : SyncState) (d : Document) (k : Int)
    (ext : Extracted)
    (hid : d.id = some k)
    (hex : e (d.content.getD "") d.correspondent = Except.ok ext)
    (hlk : lookupAssoc st.existing k = none) :
    processDoc e p n st d
      = { st with
          inserted_rows := st.inserted_rows ++ [insertInvoice n k d ext (parsedCreated p d)],
          inserted := st.inserted + 1 } ∧
    (insertInvoice n k d ext (parsedCreated p d)).vendor = ext.vendor ∧
    (insertInvoice n k d ext (parsedCreated p d)).amount = ext.amount ∧
    (insertInvoice n k d ext (parsedCreated p d)).vendor_auto = ext.vendor ∧
    (insertInvoice n k d ext (parsedCreated p d)).amount_auto = ext.amount ∧
    (insertInvoice n k d ext (parsedCreated p d)).vendor_source = "auto" ∧
    (insertInvoice n k d ext (parsedCreated p d)).amount_source = "auto" ∧
    (insertInvoice n k d ext (parsedCreated p d)).needs_review = ext.needs_review.getD true := by
  refine ⟨?_, rfl, rfl, rfl, rfl, rfl, rfl, rfl⟩
  simp [processDoc, hid, hex, hlk]

/-- C6 witness. -/
theorem insert_path_witness :
    processDoc exOk tsNone 5 (initState []) docW
      = { initState [] with
          inserted_rows := (initState []).inserted_rows
            ++ [insertInvoice 5 1 docW extW (parsedCreated tsNone docW)],
          inserted := (initState []).inserted + 1 } ∧
    (insertInvoice 5 1 docW extW (parsedCreated tsNone docW)).vendor = extW.vendor ∧
    (insertInvoice 5 1 docW extW (parsedCreated tsNone docW)).amount = extW.amount ∧
    (insertInvoice 5 1 docW extW (parsedCreated tsNone docW)).vendor_auto = extW.vendor ∧
    (insertInvoice 5 1 docW extW (parsedCreated tsNone docW)).amount_auto = extW.amount ∧
    (insertInvoice 5 1 docW extW (parsedCreated tsNone docW)).vendor_source = "auto" ∧
    (insertInvoice 5 1 docW extW (parsedCreated tsNone docW)).amount_source = "auto" ∧
    (insertInvoice 5 1 docW extW (parsedCreated tsNone docW)).needs_review
      = extW.needs_review.getD true :=
  insert_path exOk tsNone 5 (initState []) docW 1 extW (by decide) (by rfl) (by decide)

/-! Provenance-marker frame lemmas (claim C10). -/

theorem processDoc_preserves_sources (e : String → Option String → Except String Extracted)
    (p : String → Option Nat) (n : Nat) (st : SyncState) (d : Document) (k : Int) (v : Invoice)
    (hv : lookupAssoc st.existing k = some v) :
    ∃ v', lookupAssoc (processDoc e p n st d).existing k = some v' ∧
      v'.vendor_source = v.vendor_source ∧ v'.amount_source = v.amount_source := by
  cases hid : d.id with
  | none => exact ⟨v, by simp [processDoc, hid, hv], rfl, rfl⟩
  | some docId =>
    cases hex : e (d.content.getD "") d.correspondent with
    | error msg => exact ⟨v, by simp [processDoc, hid, hex, hv], rfl, rfl⟩
    | ok ext =>
      cases hlk : lookupAssoc st.existing docId with
      | none => exact ⟨v, by simp [processDoc, hid, hex, hlk, hv], rfl, rfl⟩
      | some inv =>
        by_cases hch : applyUpdate n docId d ext (parsedCreated p d) inv = inv
        · exact ⟨v, by simp [processDoc, hid, hex, hlk, hch, hv], rfl, rfl⟩
        · by_cases hkd : docId = k
          · subst hkd
            have hiv : inv = v := by
              rw [hv] at hlk
              exact (Option.some_injective _ hlk.symm)
            refine ⟨applyUpdate n docId d ext (parsedCreated p d) inv, ?_, ?_, ?_⟩
            · simp [processDoc, hid, hex, hlk, hch]
              exact lookupAssoc_updateAssoc_self st.existing docId _ (by simp [hlk])
            · simp [applyUpdate, hiv]
            · simp [applyUpdate, hiv]
          · refine ⟨v, ?_, rfl, rfl⟩
            simp [processDoc, hid, hex, hlk, hch]
            rw [lookupAssoc_updateAssoc_ne st.existing k docId _ hkd]
            exact hv

theorem runDocs_preserves_sources (e : String → Option String → Except String Extracted)
    (p : String → Option Nat) (n : Nat) :
    ∀ (docs : List Document) (st : SyncState) (k : Int) (v : Invoice),
    lookupAssoc st.existing k = some v →
    ∃ v', lookupAssoc (runDocs e p n st docs).existing k = some v' ∧
      v'.vendor_source = v.vendor_source ∧ v'.amount_source = v.amount_source := by
  intro docs
  induction docs with
  | nil => intro st k v hv; exact ⟨v, hv, rfl, rfl⟩
  | cons d rest ih =>
    intro st k v hv
    obtain ⟨v₁, hv₁, hvs₁, has₁⟩ := processDoc_preserves_sources e p n st d k v hv
    obtain ⟨v₂, hv₂, hvs₂, has₂⟩ := ih (processDoc e p n st d) k v₁ hv₁
    exact ⟨v₂, by simpa [runDocs] using hv₂, hvs₂.trans hvs₁, has₂.trans has₁⟩

/-- C10: a reconciliation pass never modifies any stored invoice's
`vendor_source` or `amount_source` — for every invoice present in the
`existing` map at the start of the run, the row stored under the same key after
the whole batch has the same two provenance markers, whatever the extractor
returned; only the external edit and reset operations write those markers. -/
theorem sync_never_flips_sources (e : String → Option String → Except String Extracted)
    (p : String → Option Nat) (n : Nat) (docs : List Document)
    (existing : List (Int × Invoice)) (k : Int) (v : Invoice)
    (hv : lookupAssoc existing k = some v) :
    ∃ v', lookupAssoc (sync_invoices e p n docs existing).2.existing k = some v' ∧
      v'.vendor_source = v.vendor_source ∧ v'.amount_source = v.amount_source := by
  have h := runDocs_preserves_sources e p n docs (initState existing) k v (by simpa [initState])
  simpa [sync_invoices] using h

/-- C10 witness. -/
theorem sync_never_flips_sources_witness :
    ∃ v', lookupAssoc (sync_invoices exOk tsNone 5 [docW] [(1, invManualV)]).2.existing 1
        = some v' ∧
      v'.vendor_source = invManualV.vendor_source ∧
      v'.amount_source = invManualV.amount_source :=
  sync_never_flips_sources exOk tsNone 5 [docW] [(1, invManualV)] 1 invManualV (by decide)

/-- C9: a user edit supplying a (non-null) new value for a field writes the new
value into the visible field, and flips that field's source to `manual`
whenever the new value differs from the currently stored value. -/
theorem manual_edit_flip (inv : Invoice) (v : String) (a : Int) :
    (update_invoice { vendor := some (some v) } inv).vendor = some v ∧
    (inv.vendor ≠ some v →
      (update_invoice { vendor := some (some v) } inv).vendor_source = "manual") ∧
    (update_invoice { amount := some (some a) } inv).amount = some a ∧
    (inv.amount ≠ some a →
      (update_invoice { amount := some (some a) } inv).amount_source = "manual") := by
  refine ⟨?_, ?_, ?_, ?_⟩
  · simp [update_invoice, resetFlag]
    split_ifs <;> simp
  · intro h
    simp [update_invoice, resetFlag, h]
    split_ifs <;> simp
  · simp [update_invoice, resetFlag]
    split_ifs <;> simp
  · intro h
    simp [update_invoice, resetFlag, h]
    split_ifs <;> simp

/-- C9 witness. -/
theorem manual_edit_flip_witness :
    (update_invoice { vendor := some (some "ManualCorp") } invAuto).vendor
        = some "ManualCorp" ∧
    (invAuto.vendor ≠ some "ManualCorp" →
      (update_invoice { vendor := some (some "ManualCorp") } invAuto).vendor_source
        = "manual") ∧
    (update_invoice { amount := some (some 333) } invAuto).amount = some 333 ∧
    (invAuto.amount ≠ some 333 →
      (update_invoice { amount := some (some 333) } invAuto).amount_source = "manual") :=
  manual_edit_flip invAuto "ManualCorp" 333

/-- C8 counterexample: for an invoice whose vendor shadow is null, a manual
edit followed by a reset-to-auto flips `vendor_source` back to `auto` but does
NOT copy `vendor_auto` into the visible field — the visible vendor stays
`"ManualCorp"` while the most recently stored `vendor_auto` is `none`, because
the copy in `update_invoice` is guarded by `vendor_auto is not None`. -/
theorem reset_shadow_counterexample :
    (update_invoice { reset_vendor := some (some true) }
       (update_invoice { vendor := some (some "ManualCorp") } invNullShadow)).vendor_source
      = "auto" ∧
    (update_invoice { reset_vendor := some (some true) }
       (update_invoice { vendor := some (some "ManualCorp") } invNullShadow)).vendor_auto
      = none ∧
    (update_invoice { reset_vendor := some (some true) }
       (update_invoice { vendor := some (some "ManualCorp") } invNullShadow)).vendor
      = some "ManualCorp" := by
  decide

/-- C8 (amended): a reset on field F sets `F_source` back to `auto` and copies
the current shadow `F_auto` into the visible `F` provided the shadow is
non-null; a null shadow leaves the visible field unchanged. Hence after a
manual edit followed by a reset, the visible field equals the most recently
stored `F_auto` whenever that shadow value is non-null. -/
theorem reset_recovers_shadow (inv : Invoice) (s : String) (b : Int) :
    (update_invoice { reset_vendor := some (some true) } inv).vendor_source = "auto" ∧
    (∀ a, inv.vendor_auto = some a →
      (update_invoice { reset_vendor := some (some true) } inv).vendor = some a) ∧
    (inv.vendor_auto = none →
      (update_invoice { reset_vendor := some (some true) } inv).vendor = inv.vendor) ∧
    (update_invoice { reset_amount := some (some true) } inv).amount_source = "auto" ∧
    (∀ a, inv.amount_auto = some a →
      (update_invoice { reset_amount := some (some true) } inv).amount = some a) ∧
    (inv.amount_auto = none →
      (update_invoice { reset_amount := some (some true) } inv).amount = inv.amount) ∧
    (∀ a, inv.vendor_auto = some a →
      (update_invoice { reset_vendor := some (some true) }
         (update_invoice { vendor := some (some s) } inv)).vendor = some a ∧
      (update_invoice { reset_vendor := some (some true) }
         (update_invoice { vendor := some (some s) } inv)).vendor_source = "auto") ∧
    (∀ a, inv.amount_auto = some a →
      (update_invoice { reset_amount := some (some true) }
         (update_invoice { amount := some (some b) } inv)).amount = some a ∧
      (update_invoice { reset_amount := some (some true) }
         (update_invoice { amount := some (some b) } inv)).amount_source = "auto") := by
  refine ⟨?_, ?_, ?_, ?_, ?_, ?_, ?_, ?_⟩
  · simp [update_invoice, resetFlag]
    split_ifs <;> simp
  · intro a ha
    simp [update_invoice, resetFlag, ha]
    split_ifs <;> simp
  · intro ha
    simp [update_invoice, resetFlag, ha]
    split_ifs <;> simp
  · simp [update_invoice, resetFlag]
    split_ifs <;> simp
  · intro a ha
    simp [update_invoice, resetFlag, ha]
    split_ifs <;> simp
  · intro ha
    simp [update_invoice, resetFlag, ha]
    split_ifs <;> simp
  · intro a ha
    constructor
    · simp [update_invoice, resetFlag, ha]
      split_ifs <;> simp
    · simp [update_invoice, resetFlag, ha]
      split_ifs <;> simp
  · intro a ha
    constructor
    · simp [update_invoice, resetFlag, ha]
      split_ifs <;> simp
    · simp [update_invoice, resetFlag, ha]
      split_ifs <;> simp

/-- C8 witness: on a row whose shadows are populated, reset recovers the shadow
value, also after a manual edit. -/
theorem reset_recovers_shadow_witness :
    (update_invoice { reset_vendor := some (some true) } invAuto).vendor_source = "auto" ∧
    (update_invoice { reset_vendor := some (some true) } invAuto).vendor = some "Old" ∧
    (update_invoice { reset_amount := some (some true) } invAuto).amount = some 100 ∧
    (update_invoice { reset_vendor := some (some true) }
       (update_invoice { vendor := some (some "X") } invAuto)).vendor = some "Old" ∧
    (update_invoice { reset_amount := some (some true) }
       (update_invoice { amount := some (some 7) } invAuto)).amount = some 100 :=
  ⟨(reset_recovers_shadow invAuto "X" 7).1,
   (reset_recovers_shadow invAuto "X" 7).2.1 "Old" (by decide),
   (reset_recovers_shadow invAuto "X" 7).2.2.2.2.1 100 (by decide),
   ((reset_recovers_shadow invAuto "X" 7).2.2.2.2.2.2.1 "Old" (by decide)).1,
   ((reset_recovers_shadow invAuto "X" 7).2.2.2.2.2.2.2 100 (by decide)).1⟩

/-! Error-isolation lemmas (claim C7). -/

theorem processDoc_error_step (e : String → Option String → Except String Extracted)
    (p : String → Option Nat) (n : Nat) (st : SyncState) (d : Document) (k : Int) (msg : String)
    (hid : d.id = some k)
    (hex : e (d.content.getD "") d.correspondent = Except.error msg) :
    processDoc e p n st d
      = { st with error_count := st.error_count + 1,
                  first_error := some (st.first_error.getD msg) } := by
  simp [processDoc, hid, hex]

theorem processDoc_congr (e : String → Option String → Except String Extracted)
    (p : String → Option Nat) (n : Nat) (d : Document) (s s' : SyncState)
    (hex : s'.existing = s.existing) (hins : s'.inserted_rows = s.inserted_rows) :
    (processDoc e p n s' d).existing = (processDoc e p n s d).existing ∧
    (processDoc e p n s' d).inserted_rows = (processDoc e p n s d).inserted_rows ∧
    (processDoc e p n s' d).inserted + s.inserted
      = (processDoc e p n s d).inserted + s'.inserted ∧
    (processDoc e p n s' d).updated + s.updated
      = (processDoc e p n s d).updated + s'.updated ∧
    (processDoc e p n s' d).skipped + s.skipped
      = (processDoc e p n s d).skipped + s'.skipped ∧
    (processDoc e p n s' d).error_count + s.error_count
      = (processDoc e p n s d).error_count + s'.error_count := by
  cases hid : d.id with
  | none =>
    simp only [processDoc, hid]
    exact ⟨hex, hins, by omega, by omega, by omega, by omega⟩
  | some docId =>
    cases hexc : e (d.content.getD "") d.correspondent with
    | error msg =>
      simp only [processDoc, hid, hexc]
      exact ⟨hex, hins, by omega, by omega, by omega, by omega⟩
    | ok ext =>
      have hlk' : lookupAssoc s'.existing docId = lookupAssoc s.existing docId := by
        rw [hex]
      cases hlk : lookupAssoc s.existing docId with
      | none =>
        rw [hlk] at hlk'
        simp only [processDoc, hid, hexc, hlk, hlk']
        simp [hex, hins]
        omega
      | some inv =>
        rw [hlk] at hlk'
        by_cases hch : applyUpdate n docId d ext (parsedCreated p d) inv = inv
        · simp only [processDoc, hid, hexc, hlk, hlk', hch]
          simp [hex, hins]
          omega
        · simp only [processDoc, hid, hexc, hlk, hlk', hch]
          simp [hex, hins]
          omega

theorem runDocs_congr (e : String → Option String → Except String Extracted)
    (p : String → Option Nat) (n : Nat) :
    ∀ (docs : List Document) (s s' : SyncState),
    s'.existing = s.existing → s'.inserted_rows = s.inserted_rows →
    (runDocs e p n s' docs).existing = (runDocs e p n s docs).existing ∧
    (runDocs e p n s' docs).inserted_rows = (runDocs e p n s docs).inserted_rows ∧
    (runDocs e p n s' docs).inserted + s.inserted
      = (runDocs e p n s docs).inserted + s'.inserted ∧
    (runDocs e p n s' docs).updated + s.updated
      = (runDocs e p n s docs).updated + s'.updated ∧
    (runDocs e p n s' docs).skipped + s.skipped
      = (runDocs e p n s docs).skipped + s'.skipped ∧
    (runDocs e p n s' docs).error_count + s.error_count
      = (runDocs e p n s docs).error_count + s'.error_count := by
  intro docs
  induction docs with
  | nil =>
    intro s s' hex hins
    simp only [runDocs, List.foldl_nil]
    exact ⟨hex, hins, by omega, by omega, by omega, by omega⟩
  | cons d rest ih =>
    intro s s' hex hins
    obtain ⟨h1, h2, h3, h4, h5, h6⟩ := processDoc_congr e p n d s s' hex hins
    obtain ⟨g1, g2, g3, g4, g5, g6⟩ := ih (processDoc e p n s d) (processDoc e p n s' d) h1 h2
    simp only [runDocs, List.foldl_cons] at *
    exact ⟨g1, g2, by omega, by omega, by omega, by omega⟩

theorem processDoc_first_error_some (e : String → Option String → Except String Extracted)
    (p : String → Option Nat) (n : Nat) (st : SyncState) (d : Document) (t : String)
    (h : st.first_error = some t) :
    (processDoc e p n st d).first_error = some t := by
  cases hid : d.id with
  | none => simpa [processDoc, hid]
  | some docId =>
    cases hexc : e (d.content.getD "") d.correspondent with
    | error msg => simp [processDoc, hid, hexc, h]
    | ok ext =>
      cases hlk : lookupAssoc st.existing docId with
      | none => simpa [processDoc, hid, hexc, hlk]
      | some inv =>
        by_cases hch : applyUpdate n docId d ext (parsedCreated p d) inv = inv
        · simpa [processDoc, hid, hexc, hlk, hch]
        · simpa [processDoc, hid, hexc, hlk, hch]

theorem runDocs_first_error_some (e : String → Option String → Except String Extracted)
    (p : String → Option Nat) (n : Nat) :
    ∀ (docs : List Document) (st : SyncState) (t : String),
    st.first_error = some t → (runDocs e p n st docs).first_error = some t := by
  intro docs
  induction docs with
  | nil => intro st t h; simpa [runDocs]
  | cons d rest ih =>
    intro st t h
    simpa [runDocs, List.foldl_cons] using
      ih (processDoc e p n st d) t (processDoc_first_error_some e p n st d t h)

/-- C7: an extraction error on one document of the batch is caught and counted —
the run over `docs₁ ++ [d] ++ docs₂`, where `d` has an external id and its
extraction raises `msg`, records `checked_docs` equal to the whole batch
length, the same insert/update/skip counters and the same final invoice state
(both the mutated map and the pending inserts) as the run over `docs₁ ++ docs₂`
with `d` absent, exactly one extra counted error, and, when no document of
`docs₁` errored before it, `msg` as the run's `last_error_text`. -/
theorem error_isolation (e : String → Option String → Except String Extracted)
    (p : String → Option Nat) (n : Nat) (d : Document) (k : Int) (msg : String)
    (docs₁ docs₂ : List Document) (existing : List (Int × Invoice))
    (hid : d.id = some k)
    (hex : e (d.content.getD "") d.correspondent = Except.error msg) :
    (sync_invoices e p n (docs₁ ++ d :: docs₂) existing).1.checked_docs
      = docs₁.length + docs₂.length + 1 ∧
    (sync_invoices e p n (docs₁ ++ d :: docs₂) existing).1.new_invoices
      = (sync_invoices e p n (docs₁ ++ docs₂) existing).1.new_invoices ∧
    (sync_invoices e p n (docs₁ ++ d :: docs₂) existing).1.updated_invoices
      = (sync_invoices e p n (docs₁ ++ docs₂) existing).1.updated_invoices ∧
    (sync_invoices e p n (docs₁ ++ d :: docs₂) existing).1.skipped_invoices
      = (sync_invoices e p n (docs₁ ++ docs₂) existing).1.skipped_invoices ∧
    (sync_invoices e p n (docs₁ ++ d :: docs₂) existing).1.error_count
      = (sync_invoices e p n (docs₁ ++ docs₂) existing).1.error_count + 1 ∧
    (sync_invoices e p n (docs₁ ++ d :: docs₂) existing).2.existing
      = (sync_invoices e p n (docs₁ ++ docs₂) existing).2.existing ∧
    (sync_invoices e p n (docs₁ ++ d :: docs₂) existing).2.inserted_rows
      = (sync_invoices e p n (docs₁ ++ docs₂) existing).2.inserted_rows ∧
    ((runDocs e p n (initState existing) docs₁).first_error = none →
      (sync_invoices e p n (docs₁ ++ d :: docs₂) existing).1.last_error_text = some msg) := by
  have hfold :
      runDocs e p n (initState existing) (docs₁ ++ d :: docs₂)
        = runDocs e p n
            (processDoc e p n (runDocs e p n (initState existing) docs₁) d) docs₂ := by
    simp [runDocs, List.foldl_append]
  have hfold' :
      runDocs e p n (initState existing) (docs₁ ++ docs₂)
        = runDocs e p n (runDocs e p n (initState existing) docs₁) docs₂ := by
    simp [runDocs, List.foldl_append]
  have hstep := processDoc_error_step e p n (runDocs e p n (initState existing) docs₁) d k msg
    hid hex
  have hE1 : (processDoc e p n (runDocs e p n (initState existing) docs₁) d).existing
      = (runDocs e p n (initState existing) docs₁).existing := by rw [hstep]
  have hE2 : (processDoc e p n (runDocs e p n (initState existing) docs₁) d).inserted_rows
      = (runDocs e p n (initState existing) docs₁).inserted_rows := by rw [hstep]
  have hE3 : (processDoc e p n (runDocs e p n (initState existing) docs₁) d).inserted
      = (runDocs e p n (initState existing) docs₁).inserted := by rw [hstep]
  have hE4 : (processDoc e p n (runDocs e p n (initState existing) docs₁) d).updated
      = (runDocs e p n (initState existing) docs₁).updated := by rw [hstep]
  have hE5 : (processDoc e p n (runDocs e p n (initState existing) docs₁) d).skipped
      = (runDocs e p n (initState existing) docs₁).skipped := by rw [hstep]
  have hE6 : (processDoc e p n (runDocs e p n (initState existing) docs₁) d).error_count
      = (runDocs e p n (initState existing) docs₁).error_count + 1 := by rw [hstep]
  have hE7 : (processDoc e p n (runDocs e p n (initState existing) docs₁) d).first_error
      = some ((runDocs e p n (initState existing) docs₁).first_error.getD msg) := by rw [hstep]
  obtain ⟨g1, g2, g3, g4, g5, g6⟩ :=
    runDocs_congr e p n docs₂ (runDocs e p n (initState existing) docs₁)
      (processDoc e p n (runDocs e p n (initState existing) docs₁) d) hE1 hE2
  refine ⟨?_, ?_, ?_, ?_, ?_, ?_, ?_, ?_⟩
  · simp [sync_invoices]
    omega
  · simp only [sync_invoices]
    rw [hfold, hfold']
    omega
  · simp only [sync_invoices]
    rw [hfold, hfold']
    omega
  · simp only [sync_invoices]
    rw [hfold, hfold']
    omega
  · simp only [sync_invoices]
    rw [hfold, hfold']
    omega
  · simp only [sync_invoices]
    rw [hfold, hfold']
    exact g1
  · simp only [sync_invoices]
    rw [hfold, hfold']
    exact g2
  · intro hnone
    simp only [sync_invoices]
    rw [hfold]
    refine runDocs_first_error_some e p n docs₂ _ msg ?_
    rw [hE7, hnone]
    rfl

/-- C7 witness: batch of three documents whose middle document's extraction
raises; under `exErr` the other two are inserted exactly as if it were absent. -/
theorem error_isolation_witness :
    (sync_invoices exErr tsNone 0 ([docW] ++ docBoom :: [docW3]) []).1.checked_docs
      = [docW].length + [docW3].length + 1 ∧
    (sync_invoices exErr tsNone 0 ([docW] ++ docBoom :: [docW3]) []).1.new_invoices
      = (sync_invoices exErr tsNone 0 ([docW] ++ [docW3]) []).1.new_invoices ∧
    (sync_invoices exErr tsNone 0 ([docW] ++ docBoom :: [docW3]) []).1.updated_invoices
      = (sync_invoices exErr tsNone 0 ([docW] ++ [docW3]) []).1.updated_invoices ∧
    (sync_invoices exErr tsNone 0 ([docW] ++ docBoom :: [docW3]) []).1.skipped_invoices
      = (sync_invoices exErr tsNone 0 ([docW] ++ [docW3]) []).1.skipped_invoices ∧
    (sync_invoices exErr tsNone 0 ([docW] ++ docBoom :: [docW3]) []).1.error_count
      = (sync_invoices exErr tsNone 0 ([docW] ++ [docW3]) []).1.error_count + 1 ∧
    (sync_invoices exErr tsNone 0 ([docW] ++ docBoom :: [docW3]) []).2.existing
      = (sync_invoices exErr tsNone 0 ([docW] ++ [docW3]) []).2.existing ∧
    (sync_invoices exErr tsNone 0 ([docW] ++ docBoom :: [docW3]) []).2.inserted_rows
      = (sync_invoices exErr tsNone 0 ([docW] ++ [docW3]) []).2.inserted_rows ∧
    ((runDocs exErr tsNone 0 (initState []) [docW]).first_error = none →
      (sync_invoices exErr tsNone 0 ([docW] ++ docBoom :: [docW3]) []).1.last_error_text
        = some "kaputt") :=
  error_isolation exErr tsNone 0 docBoom 2 "kaputt" [docW] [docW3] []
    (by decide) (by rfl)

/-! Second-pass idempotence lemmas (claim C1). -/

theorem applyUpdate_idem (n : Nat) (k : Int) (d : Document) (ext : Extracted)
    (c : Option Nat) (inv : Invoice) :
    applyUpdate n k d ext c (applyUpdate n k d ext c inv) = applyUpdate n k d ext c inv := by
  by_cases hv : inv.vendor_source = "auto" <;> by_cases ha : inv.amount_source = "auto" <;>
    simp [applyUpdate, hv, ha]

theorem applyUpdate_insertInvoice (n : Nat) (k : Int) (d : Document) (ext : Extracted)
    (c : Option Nat) :
    applyUpdate n k d ext c (insertInvoice n k d ext c) = insertInvoice n k d ext c := by
  simp [applyUpdate, insertInvoice]

theorem lookupAssoc_keyed_none (rows : List Invoice) (k : Int)
    (h : ∀ i ∈ rows, i.paperless_doc_id ≠ k) :
    lookupAssoc (rows.map (fun i => (i.paperless_doc_id, i))) k = none := by
  induction rows with
  | nil => rfl
  | cons r rest ih =>
    simp only [List.map_cons, lookupAssoc]
    rw [if_neg (h r (by simp))]
    exact ih (fun i hi => h i (by simp [hi]))

theorem processDoc_lookup_other (e : String → Option String → Except String Extracted)
    (p : String → Option Nat) (n : Nat) (st : SyncState) (d : Document) (k : Int)
    (h : d.id ≠ some k) :
    lookupAssoc (nextExisting (processDoc e p n st d)) k
      = lookupAssoc (nextExisting st) k := by
  cases hid : d.id with
  | none => simp [processDoc, hid]
  | some docId =>
    have hdk : docId ≠ k := by
      rintro rfl
      exact h hid
    cases hexc : e (d.content.getD "") d.correspondent with
    | error msg => simp [processDoc, hid, hexc, nextExisting]
    | ok ext =>
      cases hlk : lookupAssoc st.existing docId with
      | none =>
        simp only [processDoc, hid, hexc, hlk, nextExisting]
        cases hl1 : lookupAssoc st.existing k with
        | some v =>
          rw [lookupAssoc_append_left _ _ _ _ hl1, lookupAssoc_append_left _ _ _ _ hl1]
        | none =>
          rw [lookupAssoc_append_right _ _ _ hl1, lookupAssoc_append_right _ _ _ hl1,
            List.map_append]
          cases hl2 : lookupAssoc (st.inserted_rows.map (fun i => (i.paperless_doc_id, i))) k with
          | some v => rw [lookupAssoc_append_left _ _ _ _ hl2]
          | none =>
            rw [lookupAssoc_append_right _ _ _ hl2]
            simp [lookupAssoc, insertInvoice, hdk]
      | some inv =>
        by_cases hch : applyUpdate n docId d ext (parsedCreated p d) inv = inv
        · simp [processDoc, hid, hexc, hlk, hch, nextExisting]
        · simp only [processDoc, hid, hexc, hlk, hch, ite_false, if_neg, not_false_iff,
            nextExisting]
          have hupd :
              lookupAssoc
                  (updateAssoc st.existing docId (applyUpdate n docId d ext (parsedCreated p d) inv)) k
                = lookupAssoc st.existing k :=
            lookupAssoc_updateAssoc_ne st.existing k docId _ hdk
          cases hl1 : lookupAssoc st.existing k with
          | some v =>
            rw [lookupAssoc_append_left _ _ _ _ (hupd.trans hl1),
              lookupAssoc_append_left _ _ _ _ hl1]
          | none =>
            rw [lookupAssoc_append_right _ _ _ (hupd.trans hl1),
              lookupAssoc_append_right _ _ _ hl1]

theorem runDocs_lookup_other (e : String → Option String → Except String Extracted)
    (p : String → Option Nat) (n : Nat) :
    ∀ (docs : List Document) (st : SyncState) (k : Int),
    (∀ d ∈ docs, d.id ≠ some k) →
    lookupAssoc (nextExisting (runDocs e p n st docs)) k
      = lookupAssoc (nextExisting st) k := by
  intro docs
  induction docs with
  | nil => intro st k _; rfl
  | cons d rest ih =>
    intro st k hne
    have h1 := processDoc_lookup_other e p n st d k (hne d (by simp))
    have h2 := ih (processDoc e p n st d) k (fun d' hd' => hne d' (by simp [hd']))
    simp only [runDocs, List.foldl_cons] at h2 ⊢
    exact h2.trans h1

theorem runDocs_cons (e : String → Option String → Except String Extracted)
    (p : String → Option Nat) (n : Nat) (st : SyncState) (d : Document)
    (docs : List Document) :
    runDocs e p n st (d :: docs) = runDocs e p n (processDoc e p n st d) docs := rfl

theorem processDoc_inserted_rows_mem (e : String → Option String → Except String Extracted)
    (p : String → Option Nat) (n : Nat) (st : SyncState) (d : Document) :
    ∀ i ∈ (processDoc e p n st d).inserted_rows,
      i ∈ st.inserted_rows ∨ some i.paperless_doc_id = d.id := by
  intro i hi
  cases hid : d.id with
  | none =>
    simp only [processDoc, hid] at hi
    exact Or.inl hi
  | some docId =>
    cases hexc : e (d.content.getD "") d.correspondent with
    | error msg =>
      simp only [processDoc, hid, hexc] at hi
      exact Or.inl hi
    | ok ext =>
      cases hlk : lookupAssoc st.existing docId with
      | none =>
        simp only [processDoc, hid, hexc, hlk] at hi
        simp only [List.mem_append, List.mem_singleton] at hi
        rcases hi with hi | hi
        · exact Or.inl hi
        · right
          rw [hi]
          simp [insertInvoice, hid]
      | some inv =>
        by_cases hch : applyUpdate n docId d ext (parsedCreated p d) inv = inv
        · simp only [processDoc, hid, hexc, hlk, hch, if_pos] at hi
          exact Or.inl hi
        · simp only [processDoc, hid, hexc, hlk, hch, ite_false, if_neg, not_false_iff] at hi
          exact Or.inl hi

theorem runDocs_establishes_fix (e : String → Option String → Except String Extracted)
    (p : String → Option Nat) (n : Nat) :
    ∀ (docs : List Document) (st : SyncState),
    (∀ d ∈ docs, ∀ i ∈ st.inserted_rows, d.id ≠ some i.paperless_doc_id) →
    (docs.map Document.id).Nodup →
    (∀ d ∈ docs, ∃ ext, e (d.content.getD "") d.correspondent = Except.ok ext) →
    (∀ d ∈ docs, d.id.isSome) →
    ∀ d ∈ docs, SkipFix e p n (nextExisting (runDocs e p n st docs)) d := by
  intro docs
  induction docs with
  | nil =>
    intro st _ _ _ _ d hd
    exact absurd hd (List.not_mem_nil d)
  | cons d0 rest ih =>
    intro st hins hnodup hok hid d hd
    obtain ⟨k0, hk0⟩ := Option.isSome_iff_exists.mp (hid d0 (List.mem_cons_self d0 rest))
    obtain ⟨ext0, hext0⟩ := hok d0 (List.mem_cons_self d0 rest)
    have hrest_ne : ∀ d' ∈ rest, d'.id ≠ some k0 := by
      intro d' hd' heq
      have h1 : d0.id ∈ rest.map Document.id := by
        rw [hk0, ← heq]
        exact List.mem_map_of_mem Document.id hd'
      have h2 : d0.id ∉ rest.map Document.id := by
        simp only [List.map_cons, List.nodup_cons] at hnodup
        exact hnodup.1
      exact h2 h1
    have hfix0 : SkipFix e p n (nextExisting (processDoc e p n st d0)) d0 := by
      cases hlk0 : lookupAssoc st.existing k0 with
      | none =>
        refine ⟨k0, ext0, insertInvoice n k0 d0 ext0 (parsedCreated p d0), hk0, hext0, ?_,
          applyUpdate_insertInvoice n k0 d0 ext0 (parsedCreated p d0)⟩
        simp only [processDoc, hk0, hext0, hlk0, nextExisting]
        rw [lookupAssoc_append_right _ _ _ hlk0, List.map_append]
        have hnone2 :
            lookupAssoc (st.inserted_rows.map (fun i => (i.paperless_doc_id, i))) k0 = none := by
          refine lookupAssoc_keyed_none _ _ ?_
          intro i hi heq
          exact hins d0 (List.mem_cons_self d0 rest) i hi (by rw [hk0, heq])
        rw [lookupAssoc_append_right _ _ _ hnone2]
        simp [lookupAssoc, insertInvoice]
      | some inv =>
        by_cases hch : applyUpdate n k0 d0 ext0 (parsedCreated p d0) inv = inv
        · refine ⟨k0, ext0, inv, hk0, hext0, ?_, hch⟩
          simp only [processDoc, hk0, hext0, hlk0, hch, if_pos, nextExisting]
          exact lookupAssoc_append_left _ _ _ _ hlk0
        · refine ⟨k0, ext0, applyUpdate n k0 d0 ext0 (parsedCreated p d0) inv, hk0, hext0, ?_,
            applyUpdate_idem n k0 d0 ext0 (parsedCreated p d0) inv⟩
          simp only [processDoc, hk0, hext0, hlk0, hch, ite_false, if_neg, not_false_iff,
            nextExisting]
          exact lookupAssoc_append_left _ _ _ _
            (lookupAssoc_updateAssoc_self st.existing k0 _ (by simp [hlk0]))
    rcases List.mem_cons.mp hd with rfl | hd'
    · obtain ⟨k, ext, v, hk, hext, hlkv, hfixv⟩ := hfix0
      have hkk0 : k = k0 := by
        rw [hk] at hk0
        exact Option.some_inj.mp hk0
      subst hkk0
      refine ⟨k, ext, v, hk, hext, ?_, hfixv⟩
      rw [runDocs_cons]
      rw [runDocs_lookup_other e p n rest (processDoc e p n st d) k hrest_ne]
      exact hlkv
    · have hins' : ∀ d' ∈ rest, ∀ i ∈ (processDoc e p n st d0).inserted_rows,
          d'.id ≠ some i.paperless_doc_id := by
        intro d' hd'' i hi heq
        rcases processDoc_inserted_rows_mem e p n st d0 i hi with hmem | hpid
        · exact hins d' (List.mem_cons_of_mem d0 hd'') i hmem heq
        · apply hrest_ne d' hd''
          rw [heq, hpid]
          exact hk0
      have hnodup' : (rest.map Document.id).Nodup := by
        simp only [List.map_cons, List.nodup_cons] at hnodup
        exact hnodup.2
      have hres := ih (processDoc e p n st d0) hins' hnodup'
        (fun d' hd'' => hok d' (List.mem_cons_of_mem d0 hd''))
        (fun d' hd'' => hid d' (List.mem_cons_of_mem d0 hd'')) d hd'
      rw [runDocs_cons]
      exact hres

theorem runDocs_all_fix (e : String → Option String → Except String Extracted)
    (p : String → Option Nat) (n : Nat) :
    ∀ (docs : List Document) (st : SyncState),
    (∀ d ∈ docs, SkipFix e p n st.existing d) →
    (runDocs e p n st docs).existing = st.existing ∧
    (runDocs e p n st docs).inserted_rows = st.inserted_rows ∧
    (runDocs e p n st docs).inserted = st.inserted ∧
    (runDocs e p n st docs).updated = st.updated ∧
    (runDocs e p n st docs).skipped = st.skipped + docs.length ∧
    (runDocs e p n st docs).error_count = st.error_count := by
  intro docs
  induction docs with
  | nil =>
    intro st _
    exact ⟨rfl, rfl, rfl, rfl, rfl, rfl⟩
  | cons d rest ih =>
    intro st hfix
    obtain ⟨k, ext, v, hk, hext, hlkv, hfixv⟩ := hfix d (List.mem_cons_self d rest)
    have hstep : processDoc e p n st d = { st with skipped := st.skipped + 1 } := by
      simp [processDoc, hk, hext, hlkv, hfixv]
    have hfix' : ∀ d' ∈ rest, SkipFix e p n (processDoc e p n st d).existing d' := by
      intro d' hd'
      rw [hstep]
      exact hfix d' (List.mem_cons_of_mem d hd')
    obtain ⟨c1, c2, c3, c4, c5, c6⟩ := ih (processDoc e p n st d) hfix'
    rw [runDocs_cons, hstep]
    rw [hstep] at c1 c2 c3 c4 c5 c6
    refine ⟨by simpa using c1, by simpa using c2, by simpa using c3, by simpa using c4,
      ?_, by simpa using c6⟩
    simp only [List.length_cons]
    simp at c5
    omega

/-- C1 counterexample: reconciling the identical one-document batch twice with
the run timestamps 0 and then 1 (as with any two real `datetime.utcnow()`
instants) yields `updated = 1` and `skipped = 0` on the second pass, not
`updated = 0` and `skipped = checked_docs`: `extracted_at := now` sits in the
compared `new_data`, so the unchanged document still mutates the row. -/
theorem second_pass_different_timestamp_counterexample :
    (sync_invoices exOk tsNone 1 [docW]
        (nextExisting (sync_invoices exOk tsNone 0 [docW] []).2)).1.updated_invoices = 1 ∧
    (sync_invoices exOk tsNone 1 [docW]
        (nextExisting (sync_invoices exOk tsNone 0 [docW] []).2)).1.skipped_invoices = 0 ∧
    (sync_invoices exOk tsNone 1 [docW]
        (nextExisting (sync_invoices exOk tsNone 0 [docW] []).2)).1.checked_docs = 1 := by
  decide

/-- C1 (amended): re-running `sync_invoices` on the same unchanged batch
(identical extractor output, no intervening edits, each document carrying a
distinct external id) against the state persisted by the first pass yields
`updated = 0` and `skipped = checked_docs` PROVIDED the second pass carries the
same run timestamp `now`; a document whose complete derivable attribute set
(which includes the `extracted_at` stamp) equals the stored row is counted as
skipped with zero mutation, but a later run timestamp alone makes every such
document count as updated. -/
theorem second_pass_same_timestamp_idempotent
    (e : String → Option String → Except String Extracted)
    (p : String → Option Nat) (n : Nat) (docs : List Document)
    (existing : List (Int × Invoice))
    (hid : ∀ d ∈ docs, d.id.isSome)
    (hnodup : (docs.map Document.id).Nodup)
    (hok : ∀ d ∈ docs, ∃ ext, e (d.content.getD "") d.correspondent = Except.ok ext) :
    (sync_invoices e p n docs
        (nextExisting (sync_invoices e p n docs existing).2)).1.updated_invoices = 0 ∧
    (sync_invoices e p n docs
        (nextExisting (sync_invoices e p n docs existing).2)).1.skipped_invoices
      = (sync_invoices e p n docs
          (nextExisting (sync_invoices e p n docs existing).2)).1.checked_docs ∧
    (sync_invoices e p n docs
        (nextExisting (sync_invoices e p n docs existing).2)).1.new_invoices = 0 ∧
    (sync_invoices e p n docs
        (nextExisting (sync_invoices e p n docs existing).2)).1.error_count = 0 := by
  have hins0 : ∀ d ∈ docs, ∀ i ∈ (initState existing).inserted_rows,
      d.id ≠ some i.paperless_doc_id := by
    intro d _ i hi
    simp [initState] at hi
  have hfix := runDocs_establishes_fix e p n docs (initState existing) hins0 hnodup hok hid
  have hfix2 : ∀ d ∈ docs,
      SkipFix e p n
        (initState (nextExisting (runDocs e p n (initState existing) docs))).existing d := by
    intro d hd
    exact hfix d hd
  obtain ⟨c1, c2, c3, c4, c5, c6⟩ :=
    runDocs_all_fix e p n docs
      (initState (nextExisting (runDocs e p n (initState existing) docs))) hfix2
  refine ⟨?_, ?_, ?_, ?_⟩
  · simp only [sync_invoices]
    simpa [initState] using c4
  · simp only [sync_invoices]
    rw [c5]
    simp [initState]
  · simp only [sync_invoices]
    simpa [initState] using c3
  · simp only [sync_invoices]
    simpa [initState] using c6

/-- C1 witness: one document, empty initial store, both passes stamped 3. -/
theorem second_pass_same_timestamp_idempotent_witness :
    (sync_invoices exOk tsNone 3 [docW]
        (nextExisting (sync_invoices exOk tsNone 3 [docW] []).2)).1.updated_invoices = 0 ∧
    (sync_invoices exOk tsNone 3 [docW]
        (nextExisting (sync_invoices exOk tsNone 3 [docW] []).2)).1.skipped_invoices
      = (sync_invoices exOk tsNone 3 [docW]
          (nextExisting (sync_invoices exOk tsNone 3 [docW] []).2)).1.checked_docs ∧
    (sync_invoices exOk tsNone 3 [docW]
        (nextExisting (sync_invoices exOk tsNone 3 [docW] []).2)).1.new_invoices = 0 ∧
    (sync_invoices exOk tsNone 3 [docW]
        (nextExisting (sync_invoices exOk tsNone 3 [docW] []).2)).1.error_count = 0 :=
  second_pass_same_timestamp_idempotent exOk tsNone 3 [docW] [] (by decide) (by decide)
    (fun _ _ => ⟨extW, rfl⟩)
